/-
Verification of the TRESETA column-classification and parsing engine.

The development shallowly embeds the three Python source files:
  * predict.py   — heuristic column scorers and the classification policy,
  * parser.py    — the phone / company field parsers and the best-column
                   parse operation over a table,
  * mcp_server/server.py — the line-delimited JSON tool dispatch layer.

Strings are modelled over their character lists; scores (Python float
division of small non-negative integers) are modelled in ℚ; Python regular
expression word boundaries (\b) are modelled for ASCII word characters
([A-Za-z0-9_]); fallible operations return Except.
-/

import Mathlib

/-! ## Python string primitives -/

/-- Characters removed by Python's no-argument `str.strip()` (ASCII range). -/
def isPySpace (c : Char) : Bool :=
  c = ' ' || c = '\t' || c = '\n' || c = '\x0d' || c = '\x0b' || c = '\x0c'

/-- Drop leading characters satisfying `p` (one side of Python `strip`). -/
def stripLeadingBy (p : Char → Bool) : List Char → List Char
  | [] => []
  | c :: cs => if p c then stripLeadingBy p cs else c :: cs

/-- Python `s.strip(chars)`: remove characters satisfying `p` from both ends. -/
def stripBothBy (p : Char → Bool) (cs : List Char) : List Char :=
  ((stripLeadingBy p cs).reverse |> stripLeadingBy p).reverse

/-- Python `str.strip()` on a character list. -/
def pyStrip (cs : List Char) : List Char := stripBothBy isPySpace cs

/-- Python `str.strip()` on a `String`. -/
def pyStripStr (s : String) : String := String.mk (pyStrip s.data)

/-- Python `s.strip(" ,.-")`, the trim rule of `parse_company_name`. -/
def stripPunct (cs : List Char) : List Char :=
  stripBothBy (fun c => c = ' ' || c = ',' || c = '.' || c = '-') cs

/-- Python `str.lower()` (ASCII case mapping). -/
def pyLower (cs : List Char) : List Char := cs.map Char.toLower

/-- Python `re.sub(r"\D", "", s)`: keep only decimal digits. -/
def pyDigits (s : String) : String := String.mk (s.data.filter Char.isDigit)

/-! ## Word-boundary regex model

`predict.py` and `parser.py` search for a legal suffix `suf` with the
patterns `\b<suf>\b` and `\b<suf>\b\.?`.  Both patterns match somewhere
iff the literal `suf` occurs at a position with a word boundary on each
side, and `re.search` reports the leftmost such start position (the
optional trailing `\.?` never changes the start).  We model `\w` as ASCII
alphanumeric or underscore. -/

/-- Regex `\w` for ASCII: letters, digits, underscore. -/
def isWordChar (c : Char) : Bool := c.isAlphanum || c = '_'

/-- Whether position `i` of `cs` holds a word character (out of range: no). -/
def wordAt (cs : List Char) (i : Nat) : Bool :=
  match cs.get? i with
  | some c => isWordChar c
  | none => false

/-- Regex `\b` at position `i`: exactly one neighbouring side is a word
character; string edges count as non-word. -/
def boundaryAt (cs : List Char) (i : Nat) : Bool :=
  (match i with
   | 0 => false
   | j + 1 => wordAt cs j) != wordAt cs i

/-- The pattern `\b<suf>\b` matches `cs` starting at position `i`. -/
def wordMatchAt (cs suf : List Char) (i : Nat) : Bool :=
  boundaryAt cs i && suf.isPrefixOf (cs.drop i) && boundaryAt cs (i + suf.length)

/-- Python `re.search(r"\b" + re.escape(suf) + r"\b", cs)`: start position of
the leftmost whole-word occurrence of `suf`, if any. -/
def searchWord (cs suf : List Char) : Option Nat :=
  (List.range (cs.length + 1)).find? (fun i => wordMatchAt cs suf i)

/-- Python substring containment `k in cs`. -/
def containsSub (cs k : List Char) : Bool :=
  (List.range (cs.length + 1)).any (fun i => k.isPrefixOf (cs.drop i))

/-! ## predict.py — predicates and scorers -/

/-- Source `looks_like_phone`: strip, reject empty, then require the digit
count of the value to lie in `[7, 15]`. -/
def looks_like_phone (v : String) : Bool :=
  let s := pyStripStr v
  if s = "" then false
  else
    let d := (pyDigits s).length
    7 ≤ d && d ≤ 15

/-- Fallback keyword list of `looks_like_company`. -/
def companyKeywords : List String :=
  ["ltd", "limited", "inc", "corp", "company", "co.", "gmbh", "bank", "plc"]

/-- Source `looks_like_company`: strip, reject empty; true if some legal
suffix occurs as a whole word in the lowercased value (the suffix list is
already lowercase, from `load_legal_suffixes`), else if some fallback
keyword occurs as a substring of the lowercased value. -/
def looks_like_company (v : String) (legalSuffixes : List String) : Bool :=
  let s := pyStrip v.data
  if s = [] then false
  else
    let low := pyLower s
    if legalSuffixes.any (fun suf => (searchWord low suf.data).isSome) then true
    else companyKeywords.any (fun k => containsSub low k.data)

/-- Source `score_phone`: fraction of phone-like values. -/
def score_phone (values : List String) : ℚ :=
  (values.countP looks_like_phone : ℚ) / (max values.length 1 : ℚ)

/-- Source `score_date`.  The per-value predicate wraps the third-party
`dateutil` parser, external to this repository, so the scorer is
parameterised by that predicate. -/
def score_date (isParsableDate : String → Bool) (values : List String) : ℚ :=
  (values.countP isParsableDate : ℚ) / (max values.length 1 : ℚ)

/-- Source `score_company`: fraction of company-like values. -/
def score_company (values : List String) (legalSuffixes : List String) : ℚ :=
  (values.countP (fun v => looks_like_company v legalSuffixes) : ℚ) /
    (max values.length 1 : ℚ)

/-- Normalisation applied to each value by `score_country`: trim, lowercase. -/
def pyNorm (v : String) : String := String.mk (pyLower (pyStrip v.data))

/-- Accumulator loop of `score_country`: `(hits, total)` over the values,
skipping values that normalise to the empty string. -/
def countryCounts (countriesSet : List String) (values : List String) : Nat × Nat :=
  values.foldl
    (fun acc v =>
      let w := pyNorm v
      if w = "" then acc
      else (acc.1 + (if countriesSet.contains w then 1 else 0), acc.2 + 1))
    (0, 0)

/-- Source `score_country`: 0 for an empty country set; otherwise hits over
non-empty normalised values, 0 when that denominator is 0. -/
def score_country (values : List String) (countriesSet : List String) : ℚ :=
  if countriesSet = [] then 0
  else
    let hm := countryCounts countriesSet values
    if hm.2 = 0 then 0 else (hm.1 : ℚ) / (hm.2 : ℚ)

/-! ## predict.py — classification policy -/

/-- Classification labels of the system. -/
inductive Label where
  | PhoneNumber
  | Date
  | Country
  | CompanyName
  | Other
deriving DecidableEq, Repr

/-- Python `max(scores, key=scores.get)` over the dict with insertion order
PhoneNumber, Date, Country, CompanyName: the fold keeps the current best
unless a later score is strictly greater, so the first maximal label wins. -/
def bestLabelScore (p d c comp : ℚ) : Label × ℚ :=
  [(Label.Date, d), (Label.Country, c), (Label.CompanyName, comp)].foldl
    (fun best cur => if cur.2 > best.2 then cur else best)
    (Label.PhoneNumber, p)

/-- Source decision logic of predict.py `main` after the four scores are
computed: threshold short-circuits for PhoneNumber, Date, Country, then the
argmax with the `< 0.3 → Other` override. -/
def classify_label (p d c comp : ℚ) : Label :=
  if p ≥ 4/5 then Label.PhoneNumber
  else if d ≥ 4/5 then Label.Date
  else if c ≥ 4/5 then Label.Country
  else
    let best := bestLabelScore p d c comp
    if best.2 < 3/10 then Label.Other else best.1

/-- Source predict.py `main` classification of one column's values (CSV
loading aside): compute the four scores and decide. -/
def predict_label (isParsableDate : String → Bool) (countriesSet : List String)
    (legalSuffixes : List String) (values : List String) : Label :=
  classify_label (score_phone values) (score_date isParsableDate values)
    (score_country values countriesSet) (score_company values legalSuffixes)

/-! ## parser.py — field parsers -/

/-- Source `parse_company_name`: strip; scan the suffix list in order; for
the first suffix whose pattern `\b<suf>\b\.?` matches the lowercased copy,
split the original string at the match start and trim both parts with
`strip(" ,.-")`; otherwise return the stripped string with an empty Legal. -/
def parse_company_name (raw : String) (suffixes : List String) : String × String :=
  let s := pyStrip raw.data
  if s = [] then ("", "")
  else
    let low := pyLower s
    match suffixes.findSome? (fun suf => searchWord low suf.data) with
    | some start =>
        (String.mk (stripPunct (s.take start)), String.mk (stripPunct (s.drop start)))
    | none => (String.mk s, "")

/-- Source `DIAL_CODE_TO_COUNTRY` as an association list in dict order. -/
def DIAL_CODE_TO_COUNTRY : List (String × String) :=
  [("1", "US"), ("44", "UK"), ("91", "India")]

/-- Dict lookup `DIAL_CODE_TO_COUNTRY.get(code)`. -/
def dialLookup (code : String) : Option String :=
  (DIAL_CODE_TO_COUNTRY.find? (fun e => e.1 = code)).map (·.2)

/-- The `for length in (3, 2, 1)` loop of `parse_phone_number`: the first
dial-code length whose digit prefix is in the table wins; on no match the
country stays empty and the digits are returned whole. -/
def tryDialCodes (digits : String) : List Nat → String × String
  | [] => ("", digits)
  | l :: rest =>
      if l ≤ digits.length then
        match dialLookup (digits.take l) with
        | some country => (country, digits.drop l)
        | none => tryDialCodes digits rest
      else tryDialCodes digits rest

/-- Python `s.startswith("+")`: the first character is `+`. -/
def startsWithPlus (s : String) : Bool :=
  s.data.head? = some '+'

/-- Source `parse_phone_number`: strip, extract digits; `("", "")` when no
digits; when the stripped string starts with `+`, try dial codes of length
3, 2, 1; otherwise no country is detected. -/
def parse_phone_number (raw : String) : String × String :=
  let s := pyStripStr raw
  let digits := pyDigits s
  if digits = "" then ("", "")
  else if startsWithPlus s then tryDialCodes digits [3, 2, 1]
  else ("", digits)

/-! ## parser.py — table model and the parse operation

A table is the ordered list of its named string columns, mirroring the
DataFrame that `pd.read_csv` produces (cells stringified, missing → empty
string; the spec's invariant keeps column names unique and lengths equal). -/

structure Table where
  cols : List (String × List String)
deriving DecidableEq, Repr

/-- Row count of the table (pandas `len(df.index)` under the equal-length
column invariant). -/
def Table.nrows (t : Table) : Nat :=
  match t.cols with
  | [] => 0
  | c :: _ => c.2.length

/-- Pandas `df.empty`: true when either axis has length zero. -/
def Table.pyEmpty (t : Table) : Bool :=
  t.cols.isEmpty || t.nrows = 0

/-- Candidate column type for structural parsing. -/
inductive ColType where
  | PhoneT
  | CompanyT
deriving DecidableEq, Repr

/-- Candidate construction loop of parser.py `main`: for each column in
order, a PhoneNumber candidate then a CompanyName candidate. -/
def candidates (legalSuffixes : List String) (t : Table) :
    List (String × ColType × ℚ) :=
  t.cols.flatMap (fun col =>
    [(col.1, ColType.PhoneT, score_phone col.2),
     (col.1, ColType.CompanyT, score_company col.2 legalSuffixes)])

/-- Python `max(candidates, key=lambda x: x[2])`: first-encountered maximum
wins; `none` on an empty candidate list (where Python would raise). -/
def bestCandidate : List (String × ColType × ℚ) → Option (String × ColType × ℚ)
  | [] => none
  | x :: xs => some (xs.foldl (fun best cur => if cur.2.2 > best.2.2 then cur else best) x)

/-- Values of the named column (pandas `df[name]` under unique names). -/
def Table.getCol (t : Table) (name : String) : List String :=
  match t.cols.find? (fun c => c.1 = name) with
  | some c => c.2
  | none => []

/-- Pandas column assignment `df[name] = vals`: overwrite an existing column
in place, else append a new column at the end. -/
def Table.setCol (t : Table) (name : String) (vals : List String) : Table :=
  if t.cols.any (fun c => c.1 = name) then
    ⟨t.cols.map (fun c => if c.1 = name then (name, vals) else c)⟩
  else ⟨t.cols ++ [(name, vals)]⟩

/-- Source parser.py `main` (CSV I/O aside): reject an empty table, score
every column for phone and company, take the best candidate, and when its
score is positive parse the winning column and assign the two derived
columns; the result is the written table. -/
def parser_main (legalSuffixes : List String) (t : Table) : Except String Table :=
  if t.pyEmpty then Except.error "Input CSV is empty."
  else
    match bestCandidate (candidates legalSuffixes t) with
    | none => Except.error "max() arg is an empty sequence"
    | some best =>
        let vals := t.getCol best.1
        if best.2.1 = ColType.PhoneT ∧ best.2.2 > 0 then
          Except.ok ((t.setCol "Country" (vals.map (fun v => (parse_phone_number v).1))).setCol
            "Number" (vals.map (fun v => (parse_phone_number v).2)))
        else if best.2.1 = ColType.CompanyT ∧ best.2.2 > 0 then
          Except.ok ((t.setCol "Name"
              (vals.map (fun v => (parse_company_name v legalSuffixes).1))).setCol
            "Legal" (vals.map (fun v => (parse_company_name v legalSuffixes).2)))
        else Except.ok t

/-! ## mcp_server/server.py — JSON model and request dispatch

Tool implementations (`tool_list_files`, `tool_column_prediction`,
`tool_parse_file`) run subprocesses and touch the filesystem, so the
dispatcher is parameterised by the tool table: each tool maps its args to
either a result value or a raised-exception message (`Except`).

Two exception paths of server.py are NOT caught and crash the loop, so
they are modelled explicitly: `tool_name not in TOOLS` hashes the tool
value and raises TypeError for an unhashable (list / dict) value — this
check sits before the `try` block of `handle_request`; and `req.get`
raises AttributeError when `json.loads` returned a valid-JSON non-object
document such as `[1,2]` — `main` has no guard around `handle_request`. -/

/-- Minimal JSON value model (numbers as integers suffice here). -/
inductive Json where
  | null
  | bool (b : Bool)
  | num (n : Int)
  | str (s : String)
  | arr (elems : List Json)
  | obj (fields : List (String × Json))

/-- String view of a JSON value, for comparisons against tool-name keys. -/
def Json.asStr : Json → Option String
  | Json.str s => some s
  | _ => none

/-- Python truthiness of a JSON value, for `args or {}`. -/
def Json.falsy : Json → Bool
  | Json.null => true
  | Json.bool b => !b
  | Json.num n => n = 0
  | Json.str s => s = ""
  | Json.arr es => es.isEmpty
  | Json.obj fs => fs.isEmpty

/-- Python `str()` of the JSON values that can appear in the f-string of the
unknown-tool message. -/
def Json.pyStr : Json → String
  | Json.null => "None"
  | Json.bool b => if b then "True" else "False"
  | Json.num n => toString n
  | Json.str s => s
  | Json.arr _ => "[...]"
  | Json.obj _ => "\x7b...\x7d"

/-- Whether Python can hash the value: `null`, booleans, numbers and
strings are hashable; lists and dicts raise TypeError when hashed, as the
membership test `tool_name not in TOOLS` does. -/
def Json.hashable : Json → Bool
  | Json.arr _ => false
  | Json.obj _ => false
  | _ => true

/-- Uncaught Python exceptions of the server loop. -/
inductive PyError where
  /-- TypeError (unhashable type) raised by `tool_name not in TOOLS` when
  the request's tool value is a list or a dict. -/
  | typeErrorUnhashableTool
  /-- AttributeError raised by `req.get` when `json.loads` produced a
  valid-JSON document that is not an object. -/
  | attrErrorNonObjectRequest
deriving DecidableEq, Repr

/-- A decoded JSON-object request; absent keys read as `null` (`req.get`). -/
structure PyRequest where
  id : Json := Json.null
  tool : Json := Json.null
  args : Json := Json.null

/-- A response line: `id` always echoes the request id; exactly one of
`result` / `error` is set according to `ok`. -/
structure PyResponse where
  id : Json
  ok : Bool
  result : Option Json := none
  error : Option String := none

/-- Names of the `TOOLS` dict in registration order. -/
def TOOLS_names (tools : List (String × (Json → Except String Json))) : List String :=
  tools.map (·.1)

/-- Python `args = req.get("args", {}) or {}`. -/
def argsOrEmptyDict (j : Json) : Json :=
  if j.falsy then Json.obj [] else j

/-- Source `handle_request`: answer `list_tools` directly (the `==`
comparison never hashes); then the membership test `tool_name not in TOOLS`
hashes the tool value and raises TypeError — uncaught — for a list or dict
value; for a hashable value, an unknown tool name gets an `ok = false`
error response and a known tool runs inside `try`, a raised exception
becoming an `ok = false` error response. -/
def handle_request (tools : List (String × (Json → Except String Json)))
    (req : PyRequest) : Except PyError PyResponse :=
  if req.tool.asStr = some "list_tools" then
    Except.ok
      { id := req.id, ok := true,
        result := some (Json.obj [("tools", Json.arr ((TOOLS_names tools).map Json.str))]) }
  else if req.tool.hashable then
    match tools.find? (fun t => req.tool.asStr = some t.1) with
    | none =>
        Except.ok
          { id := req.id, ok := false,
            error := some ("Unknown tool: " ++ req.tool.pyStr) }
    | some t =>
        match t.2 (argsOrEmptyDict req.args) with
        | Except.ok r => Except.ok { id := req.id, ok := true, result := some r }
        | Except.error e => Except.ok { id := req.id, ok := false, error := some e }
  else Except.error PyError.typeErrorUnhashableTool

/-- Response emitted by the main loop for a line that is not valid JSON. -/
def invalidJsonResponse (e : String) : PyResponse :=
  { id := Json.null, ok := false, error := some ("Invalid JSON: " ++ e) }

/-- Python `fields.get(key)` on a decoded JSON object (its field list
models the dict, keys unique). -/
def jsonGet (fields : List (String × Json)) (key : String) : Json :=
  match fields.find? (fun f => f.1 = key) with
  | some f => f.2
  | none => Json.null

/-- View of a decoded JSON object as the request that `handle_request`
reads out of it via `req.get`. -/
def reqOfObj (fields : List (String × Json)) : PyRequest :=
  { id := jsonGet fields "id", tool := jsonGet fields "tool",
    args := jsonGet fields "args" }

/-- Source `main` loop of server.py: strip each stdin line, skip blank
lines, answer a JSON decode failure with an error response and continue,
otherwise call `handle_request` on the decoded document.  `decodeJson`
parameterises `json.loads`, which may return any JSON document.  The
result is the emitted responses together with the uncaught exception, if
one terminated the loop: a valid-JSON non-object document crashes at
`req.get` (AttributeError), and an unhashable tool value lets the
TypeError from `handle_request` propagate; later lines are then never read. -/
def server_main (decodeJson : String → Except String Json)
    (tools : List (String × (Json → Except String Json))) :
    List String → List PyResponse × Option PyError
  | [] => ([], none)
  | l :: rest =>
      let s := pyStripStr l
      if s = "" then server_main decodeJson tools rest
      else
        match decodeJson s with
        | Except.error e =>
            let r := server_main decodeJson tools rest
            (invalidJsonResponse e :: r.1, r.2)
        | Except.ok (Json.obj fields) =>
            match handle_request tools (reqOfObj fields) with
            | Except.ok resp =>
                let r := server_main decodeJson tools rest
                (resp :: r.1, r.2)
            | Except.error exc => ([], some exc)
        | Except.ok _ => ([], some PyError.attrErrorNonObjectRequest)

/-! ## Specification-side restatements

The following definitions are written from the spec's wording, not from the
source, and exist only to be compared with the source embeddings above. -/

/-- Spec wording of the argmax tie-break: the first label in the enumeration
order PhoneNumber, Date, Country, CompanyName whose score equals the
maximum of the four scores. -/
def argmaxLabelSpec (p d c comp : ℚ) : Label :=
  if p ≥ d ∧ p ≥ c ∧ p ≥ comp then Label.PhoneNumber
  else if d ≥ p ∧ d ≥ c ∧ d ≥ comp then Label.Date
  else if c ≥ p ∧ c ≥ d ∧ c ≥ comp then Label.Country
  else Label.CompanyName

/-- Spec wording of the classification policy: threshold short-circuits in
the order PhoneNumber, Date, Country; otherwise the argmax label, overridden
to Other when the chosen maximum score is below 0.3. -/
def classifyPolicySpec (p d c comp : ℚ) : Label :=
  if p ≥ 4/5 then Label.PhoneNumber
  else if d ≥ 4/5 then Label.Date
  else if c ≥ 4/5 then Label.Country
  else if max (max p d) (max c comp) < 3/10 then Label.Other
  else argmaxLabelSpec p d c comp

/-- Spec wording of the dial-code table. -/
def dialTableSpec : List (String × String) :=
  [("1", "US"), ("44", "UK"), ("91", "India")]

/-- Spec wording of `ParsePhoneNumber`: empty pair when there are no digits;
with a leading `+`, the first dial-code length among 3, 2, 1 whose digit
prefix is in the table determines the country and the remaining digits;
otherwise the country is empty and the number is all digits. -/
def parsePhoneSpec (raw : String) : String × String :=
  let s := pyStripStr raw
  let digits := pyDigits s
  if digits = "" then ("", "")
  else if startsWithPlus s then
    ([3, 2, 1].findSome? (fun l =>
      if l ≤ digits.length then
        (List.lookup (digits.take l) dialTableSpec).map
          (fun country => (country, digits.drop l))
      else none)).getD ("", digits)
  else ("", digits)

/-- Spec wording of `ScoreCountry`: 0 for an empty country set; otherwise,
over the normalised values that are non-empty, the fraction contained in the
country set, and 0 when no value survives normalisation. -/
def scoreCountrySpec (values : List String) (countriesSet : List String) : ℚ :=
  if countriesSet = [] then 0
  else
    let nonempty := (values.map pyNorm).filter (fun v => v ≠ "")
    if nonempty = [] then 0
    else (nonempty.countP (fun v => countriesSet.contains v) : ℚ) / (nonempty.length : ℚ)

/-! ## Helper lemmas -/

/-- The Python fold of `max(scores, key=scores.get)` computes the spec's
argmax label together with the maximum of the four scores. -/
lemma bestLabelScore_spec (p d c comp : ℚ) :
    bestLabelScore p d c comp =
      (argmaxLabelSpec p d c comp, max (max p d) (max c comp)) := by
  unfold bestLabelScore argmaxLabelSpec
  simp only [List.foldl_cons, List.foldl_nil]
  rcases le_or_lt d p with h1 | h1
  · rw [if_neg (not_lt.2 h1)]
    rcases le_or_lt c p with h2 | h2
    · rw [if_neg (not_lt.2 h2)]
      rcases le_or_lt comp p with h3 | h3
      · rw [if_neg (not_lt.2 h3), if_pos ⟨h1, h2, h3⟩,
          max_eq_left h1, max_eq_left (max_le h2 h3)]
      · rw [if_pos h3,
          if_neg (fun h => absurd h.2.2 (not_le.2 h3)),
          if_neg (fun h => absurd h.2.2 (not_le.2 (lt_of_le_of_lt h1 h3))),
          if_neg (fun h => absurd h.2.2 (not_le.2 (lt_of_le_of_lt h2 h3))),
          max_eq_left h1, max_eq_right (le_of_lt (lt_of_le_of_lt h2 h3)),
          max_eq_right (le_of_lt h3)]
    · rw [if_pos h2]
      rcases le_or_lt comp c with h3 | h3
      · rw [if_neg (not_lt.2 h3),
          if_neg (fun h => absurd h.2.1 (not_le.2 h2)),
          if_neg (fun h => absurd h.2.1 (not_le.2 (lt_of_le_of_lt h1 h2))),
          if_pos ⟨le_of_lt h2, le_of_lt (lt_of_le_of_lt h1 h2), h3⟩,
          max_eq_left h1, max_eq_left h3, max_eq_right (le_of_lt h2)]
      · rw [if_pos h3,
          if_neg (fun h => absurd h.2.2 (not_le.2 (lt_trans h2 h3))),
          if_neg (fun h => absurd h.2.2 (not_le.2 (lt_trans (lt_of_le_of_lt h1 h2) h3))),
          if_neg (fun h => absurd h.2.2 (not_le.2 h3)),
          max_eq_left h1, max_eq_right (le_of_lt h3),
          max_eq_right (le_of_lt (lt_trans h2 h3))]
  · rw [if_pos h1]
    rcases le_or_lt c d with h2 | h2
    · rw [if_neg (not_lt.2 h2)]
      rcases le_or_lt comp d with h3 | h3
      · rw [if_neg (not_lt.2 h3),
          if_neg (fun h => absurd h.1 (not_le.2 h1)),
          if_pos ⟨le_of_lt h1, h2, h3⟩,
          max_eq_right (le_of_lt h1), max_eq_left (max_le h2 h3)]
      · rw [if_pos h3,
          if_neg (fun h => absurd h.2.2 (not_le.2 (lt_trans h1 h3))),
          if_neg (fun h => absurd h.2.2 (not_le.2 h3)),
          if_neg (fun h => absurd h.2.2 (not_le.2 (lt_of_le_of_lt h2 h3))),
          max_eq_right (le_of_lt h1),
          max_eq_right (le_of_lt (lt_of_le_of_lt h2 h3)),
          max_eq_right (le_of_lt h3)]
    · rw [if_pos h2]
      rcases le_or_lt comp c with h3 | h3
      · rw [if_neg (not_lt.2 h3),
          if_neg (fun h => absurd h.2.1 (not_le.2 (lt_trans h1 h2))),
          if_neg (fun h => absurd h.2.1 (not_le.2 h2)),
          if_pos ⟨le_of_lt (lt_trans h1 h2), le_of_lt h2, h3⟩,
          max_eq_right (le_of_lt h1), max_eq_left h3,
          max_eq_right (le_of_lt h2)]
      · rw [if_pos h3,
          if_neg (fun h => absurd h.2.2 (not_le.2 (lt_trans (lt_trans h1 h2) h3))),
          if_neg (fun h => absurd h.2.2 (not_le.2 (lt_trans h2 h3))),
          if_neg (fun h => absurd h.2.2 (not_le.2 h3)),
          max_eq_right (le_of_lt h1), max_eq_right (le_of_lt h3),
          max_eq_right (le_of_lt (lt_trans h2 h3))]

/-- The source decision chain equals the spec's policy formulation. -/
lemma classify_label_spec (p d c comp : ℚ) :
    classify_label p d c comp = classifyPolicySpec p d c comp := by
  simp only [classify_label, classifyPolicySpec, bestLabelScore_spec]

/-- Dict lookup in the source table agrees with association-list lookup in
the spec's table. -/
lemma dialLookup_eq (code : String) :
    dialLookup code = List.lookup code dialTableSpec := by
  by_cases h1 : code = "1"
  · subst h1; rfl
  · by_cases h2 : code = "44"
    · subst h2; rfl
    · by_cases h3 : code = "91"
      · subst h3; rfl
      · have e1 : (code == "1") = false := beq_eq_false_iff_ne.mpr h1
        have e2 : (code == "44") = false := beq_eq_false_iff_ne.mpr h2
        have e3 : (code == "91") = false := beq_eq_false_iff_ne.mpr h3
        simp [dialLookup, DIAL_CODE_TO_COUNTRY, dialTableSpec, List.find?, List.lookup,
          e1, e2, e3, Ne.symm h1, Ne.symm h2, Ne.symm h3]

/-- The dial-code loop of the source equals the spec's first-match search
over the candidate lengths. -/
lemma tryDialCodes_spec (digits : String) (ls : List Nat) :
    tryDialCodes digits ls =
      (ls.findSome? (fun l =>
        if l ≤ digits.length then
          (List.lookup (digits.take l) dialTableSpec).map
            (fun country => (country, digits.drop l))
        else none)).getD ("", digits) := by
  induction ls with
  | nil => rfl
  | cons l rest ih =>
      rw [tryDialCodes, List.findSome?]
      by_cases hl : l ≤ digits.length
      · rw [if_pos hl, if_pos hl, dialLookup_eq]
        cases List.lookup (digits.take l) dialTableSpec with
        | none => simpa using ih
        | some country => rfl
      · rw [if_neg hl, if_neg hl]
        simpa using ih

/-- The accumulator loop of `score_country` counts exactly the hits and the
size of the non-empty normalised values. -/
lemma countryCounts_spec (countriesSet : List String) (values : List String) :
    countryCounts countriesSet values =
      (((values.map pyNorm).filter (fun v => v ≠ "")).countP
          (fun v => countriesSet.contains v),
        ((values.map pyNorm).filter (fun v => v ≠ "")).length) := by
  suffices h : ∀ a b : Nat,
      values.foldl
        (fun acc v =>
          let w := pyNorm v
          if w = "" then acc
          else (acc.1 + (if countriesSet.contains w then 1 else 0), acc.2 + 1))
        (a, b) =
      (a + ((values.map pyNorm).filter (fun v => v ≠ "")).countP
          (fun v => countriesSet.contains v),
        b + ((values.map pyNorm).filter (fun v => v ≠ "")).length) by
    simpa [countryCounts] using h 0 0
  induction values with
  | nil => intro a b; simp
  | cons v vs ih =>
      intro a b
      by_cases hv : pyNorm v = ""
      · simp only [List.foldl_cons, List.map_cons, List.filter_cons, hv]
        simpa [hv] using ih a b
      · simp only [List.foldl_cons, List.map_cons, List.filter_cons, hv]
        rw [ih]
        simp [hv, List.countP_cons, Prod.mk.injEq]
        generalize (if pyNorm v ∈ countriesSet then 1 else 0) = x
        omega

/-! ## Claim theorems -/

/-- C1: for every list of string values and every fixed country set and
legal-suffix list (and any date predicate), the classification policy
returns PhoneNumber when the phone score is at least 0.8, else Date when
the date score is at least 0.8, else Country when the country score is at
least 0.8, and otherwise the label with the maximum of the four scores with
ties broken in the order PhoneNumber, Date, Country, CompanyName, the label
being overridden to Other in that argmax branch when the chosen maximum
score is below 0.3. -/
theorem claim_C1_classification_policy (isParsableDate : String → Bool)
    (countriesSet legalSuffixes values : List String) :
    predict_label isParsableDate countriesSet legalSuffixes values =
      classifyPolicySpec (score_phone values) (score_date isParsableDate values)
        (score_country values countriesSet) (score_company values legalSuffixes) :=
  classify_label_spec _ _ _ _

/-- C2 counterexample: on `"Acme Widgets, Inc."` with suffix list `["inc"]`
the parser does not return `("Acme Widgets", "Inc.")` — the trim rule
`strip(" ,.-")` is applied to the Legal part as well, which removes the
trailing period. -/
theorem claim_C2_counterexample :
    parse_company_name "Acme Widgets, Inc." ["inc"] ≠ ("Acme Widgets", "Inc.") := by
  decide

/-- C2 amended: `ParseCompanyName("Acme Widgets, Inc.", ["inc"])` splits the
original string at the whole-word match of `inc`, trims both parts of
surrounding spaces, commas, periods and hyphens, and returns
`("Acme Widgets", "Inc")`: the comma is stripped from the Name and the
trailing period is stripped from the Legal part by the same rule. -/
theorem claim_C2_amended :
    parse_company_name "Acme Widgets, Inc." ["inc"] = ("Acme Widgets", "Inc") := by
  decide

/-- C3: for every input string, `parse_phone_number` behaves exactly as the
spec describes — `("", "")` with no digits, dial-code prefixes of length 3,
then 2, then 1 tried against the fixed table when the trimmed string starts
with `+`, and `("", all digits)` otherwise — and the two round-trip
examples hold. -/
theorem claim_C3_parse_phone :
    (∀ raw : String, parse_phone_number raw = parsePhoneSpec raw) ∧
    parse_phone_number "+14155552671" = ("US", "4155552671") ∧
    parse_phone_number "5551234" = ("", "5551234") := by
  refine ⟨fun raw => ?_, by decide, by decide⟩
  simp only [parse_phone_number, parsePhoneSpec, tryDialCodes_spec]

/-- C6: for every list of values, `score_country` equals the spec's
description: 0 when the country set is empty; otherwise the fraction of
trimmed-lowercased values found in the set among those that are non-empty
after normalisation, and 0 when every value normalises to empty. -/
theorem claim_C6_score_country (values countriesSet : List String) :
    score_country values countriesSet = scoreCountrySpec values countriesSet := by
  by_cases hset : countriesSet = []
  · simp [score_country, scoreCountrySpec, hset]
  · simp only [score_country, scoreCountrySpec, hset, if_false, countryCounts_spec]
    by_cases hne : ((values.map pyNorm).filter (fun v => v ≠ "")) = []
    · simp [hne]
    · have hl : ((values.map pyNorm).filter (fun v => v ≠ "")).length ≠ 0 := by
        simpa [List.length_eq_zero] using hne
      simp [hne, hl]

/-- C10: for every input whose trimmed form starts with `+` and whose
digits are exactly a known dial code, `parse_phone_number` returns the
mapped country paired with an empty Number: the dial-code match may consume
every digit. -/
theorem claim_C10_dial_code_consumes_all (raw code country : String)
    (hplus : startsWithPlus (pyStripStr raw) = true)
    (hdigits : pyDigits (pyStripStr raw) = code)
    (hcode : dialLookup code = some country) :
    parse_phone_number raw = (country, "") := by
  have hcases : code = "1" ∧ country = "US" ∨ code = "44" ∧ country = "UK" ∨
      code = "91" ∧ country = "India" := by
    by_cases h1 : code = "1"
    · subst h1
      exact Or.inl ⟨rfl, (Option.some.inj (hcode : some "US" = some country)).symm⟩
    · by_cases h2 : code = "44"
      · subst h2
        exact Or.inr (Or.inl ⟨rfl, (Option.some.inj (hcode : some "UK" = some country)).symm⟩)
      · by_cases h3 : code = "91"
        · subst h3
          exact Or.inr (Or.inr ⟨rfl, (Option.some.inj (hcode : some "India" = some country)).symm⟩)
        · simp [dialLookup, DIAL_CODE_TO_COUNTRY, List.find?,
            Ne.symm h1, Ne.symm h2, Ne.symm h3] at hcode
  rcases hcases with ⟨hc, hcy⟩ | ⟨hc, hcy⟩ | ⟨hc, hcy⟩ <;> subst hc <;> subst hcy <;>
    simp only [parse_phone_number] <;> rw [hdigits] <;> simp [hplus] <;> decide

/-- C10 witness: at `"+1"` the digits are exactly the dial code `1` and the
parser returns `("US", "")`. -/
theorem claim_C10_witness :
    startsWithPlus (pyStripStr "+1") = true ∧ pyDigits (pyStripStr "+1") = "1" ∧
      dialLookup "1" = some "US" ∧ parse_phone_number "+1" = ("US", "") :=
  ⟨by decide, by decide, by decide,
    claim_C10_dial_code_consumes_all "+1" "1" "US" (by decide) (by decide) (by decide)⟩

/-- Denominator `max(len(values), 1)` is positive. -/
lemma maxLen_pos (n : Nat) : (0 : ℚ) < max (n : ℚ) 1 :=
  lt_of_lt_of_le one_pos (le_max_right _ _)

/-- A count over a guarded denominator is non-negative. -/
lemma countFrac_nonneg (k : Nat) (n : Nat) : 0 ≤ (k : ℚ) / max (n : ℚ) 1 :=
  div_nonneg (Nat.cast_nonneg k) (le_of_lt (maxLen_pos n))

/-- A count of at most `n` over the guarded denominator is at most 1. -/
lemma countFrac_le_one (k n : Nat) (h : k ≤ n) : (k : ℚ) / max (n : ℚ) 1 ≤ 1 :=
  div_le_one_of_le₀ (le_trans (by exact_mod_cast h) (le_max_left _ _))
    (le_of_lt (maxLen_pos n))

/-- The guarded fraction is monotone in the count. -/
lemma countFrac_mono (k1 k2 n : Nat) (h : k1 ≤ k2) :
    (k1 : ℚ) / max (n : ℚ) 1 ≤ (k2 : ℚ) / max (n : ℚ) 1 :=
  div_le_div_of_nonneg_right (by exact_mod_cast h) (le_of_lt (maxLen_pos n))

/-- C7: `score_phone`, `score_date` and `score_company` each lie in `[0, 1]`,
each equals the count of matching values divided by `max(length, 1)`, each
is 0 on the empty list, and each is monotone in the matching count at a
fixed list length. -/
theorem claim_C7_scorers (isParsableDate : String → Bool) (legalSuffixes : List String)
    (values : List String) :
    (0 ≤ score_phone values ∧ score_phone values ≤ 1) ∧
    (0 ≤ score_date isParsableDate values ∧ score_date isParsableDate values ≤ 1) ∧
    (0 ≤ score_company values legalSuffixes ∧ score_company values legalSuffixes ≤ 1) ∧
    score_phone values = (values.countP looks_like_phone : ℚ) / (max values.length 1 : ℚ) ∧
    score_date isParsableDate values =
      (values.countP isParsableDate : ℚ) / (max values.length 1 : ℚ) ∧
    score_company values legalSuffixes =
      (values.countP (fun v => looks_like_company v legalSuffixes) : ℚ) /
        (max values.length 1 : ℚ) ∧
    score_phone [] = 0 ∧ score_date isParsableDate [] = 0 ∧
    score_company [] legalSuffixes = 0 ∧
    (∀ w : List String, w.length = values.length →
      (w.countP looks_like_phone ≤ values.countP looks_like_phone →
        score_phone w ≤ score_phone values) ∧
      (w.countP isParsableDate ≤ values.countP isParsableDate →
        score_date isParsableDate w ≤ score_date isParsableDate values) ∧
      (w.countP (fun v => looks_like_company v legalSuffixes) ≤
          values.countP (fun v => looks_like_company v legalSuffixes) →
        score_company w legalSuffixes ≤ score_company values legalSuffixes)) := by
  refine ⟨⟨countFrac_nonneg _ _, countFrac_le_one _ _ (List.countP_le_length _)⟩,
    ⟨countFrac_nonneg _ _, countFrac_le_one _ _ (List.countP_le_length _)⟩,
    ⟨countFrac_nonneg _ _, countFrac_le_one _ _ (List.countP_le_length _)⟩,
    rfl, rfl, rfl,
    by norm_num [score_phone], by norm_num [score_date], by norm_num [score_company],
    fun w hw => ⟨fun hc => ?_, fun hc => ?_, fun hc => ?_⟩⟩
  · unfold score_phone
    rw [hw]
    exact countFrac_mono _ _ _ hc
  · unfold score_date
    rw [hw]
    exact countFrac_mono _ _ _ hc
  · unfold score_company
    rw [hw]
    exact countFrac_mono _ _ _ hc

/-- C7 witness: the empty list scores 0 and adding a matching value at
fixed length cannot lower the phone score. -/
theorem claim_C7_witness :
    score_phone [] = 0 ∧ score_phone ["x", "y"] ≤ score_phone ["+14155552671", "y"] := by
  have h := claim_C7_scorers (fun _ => false) [] ["+14155552671", "y"]
  exact ⟨h.2.2.2.2.2.2.1,
    (h.2.2.2.2.2.2.2.2.2 ["x", "y"] (by decide)).1 (by decide)⟩

/-- Python `max` over a non-empty candidate list returns one of its
elements. -/
lemma bestCandidate_mem (l : List (String × ColType × ℚ)) (b : String × ColType × ℚ)
    (h : bestCandidate l = some b) : b ∈ l := by
  cases l with
  | nil => cases h
  | cons x xs =>
      have hb : xs.foldl (fun best cur => if cur.2.2 > best.2.2 then cur else best) x = b :=
        Option.some.inj h
      have key : ∀ (ys : List (String × ColType × ℚ)) (a : String × ColType × ℚ),
          ys.foldl (fun best cur => if cur.2.2 > best.2.2 then cur else best) a = b →
          b = a ∨ b ∈ ys := by
        intro ys
        induction ys with
        | nil => intro a ha; exact Or.inl ha.symm
        | cons y ys ih =>
            intro a ha
            simp only [List.foldl_cons] at ha
            rcases ih _ ha with h1 | h1
            · by_cases hgt : y.2.2 > a.2.2
              · rw [if_pos hgt] at h1
                exact Or.inr (h1 ▸ List.mem_cons_self y ys)
              · rw [if_neg hgt] at h1
                exact Or.inl h1
            · exact Or.inr (List.mem_cons_of_mem y h1)
      rcases key xs x hb with h1 | h1
      · exact h1 ▸ List.mem_cons_self x xs
      · exact List.mem_cons_of_mem x h1

/-- Pandas column assignment appends when the name is not yet a column. -/
lemma setCol_append (t : Table) (name : String) (vals : List String)
    (h : ∀ c ∈ t.cols, c.1 ≠ name) :
    t.setCol name vals = ⟨t.cols ++ [(name, vals)]⟩ := by
  unfold Table.setCol
  have hfalse : (t.cols.any (fun c => c.1 = name)) = false := by
    simp only [List.any_eq_false, decide_eq_true_eq]
    exact h
  rw [hfalse]
  simp

/-- The two derived columns produced for a winning column type, in the
order the source assigns them. -/
def derivedCols (legalSuffixes : List String) (ty : ColType) (vals : List String) :
    List (String × List String) :=
  match ty with
  | ColType.PhoneT =>
      [("Country", vals.map (fun v => (parse_phone_number v).1)),
       ("Number", vals.map (fun v => (parse_phone_number v).2))]
  | ColType.CompanyT =>
      [("Name", vals.map (fun v => (parse_company_name v legalSuffixes).1)),
       ("Legal", vals.map (fun v => (parse_company_name v legalSuffixes).2))]

/-- C4 counterexample: on the table with columns `Country = ["x"]` and
`phone = ["+14155552671"]` the phone column wins with score 1, but the
output overwrites the pre-existing `Country` column in place (the cell
`"x"` becomes `"US"`) and appends only `Number`, so the output is not the
input columns unchanged followed by the two derived columns. -/
theorem claim_C4_counterexample :
    parser_main [] ⟨[("Country", ["x"]), ("phone", ["+14155552671"])]⟩ =
      Except.ok ⟨[("Country", ["US"]), ("phone", ["+14155552671"]),
        ("Number", ["4155552671"])]⟩ ∧
    ([("Country", ["US"]), ("phone", ["+14155552671"]), ("Number", ["4155552671"])] :
        List (String × List String)) ≠
      [("Country", ["x"]), ("phone", ["+14155552671"])] ++
        [("Country", ["US"]), ("Number", ["4155552671"])] := by
  constructor
  · have h1 : looks_like_phone "x" = false := by decide
    have h2 : looks_like_phone "+14155552671" = true := by decide
    have h3 : looks_like_company "x" [] = false := by decide
    have h4 : looks_like_company "+14155552671" [] = false := by decide
    simp [parser_main, Table.pyEmpty, Table.nrows, candidates, bestCandidate, score_phone,
      score_company, h1, h2, h3, h4, List.countP_cons, List.countP_nil,
      Table.getCol, Table.setCol, List.find?]
    norm_num [Table.getCol, Table.setCol, List.find?]
    decide
  · decide

/-- C4 amended: when the best candidate has positive score and none of the
derived column names already occurs in the table, the output is the input
columns unchanged and in order followed by exactly the two derived columns
(Country then Number for a phone winner, Name then Legal for a company
winner); a pre-existing column with a derived name is instead overwritten
in place. -/
theorem claim_C4_appended_columns (legalSuffixes : List String) (t : Table)
    (col : String) (ty : ColType) (sc : ℚ)
    (hne : t.pyEmpty = false)
    (hbest : bestCandidate (candidates legalSuffixes t) = some (col, ty, sc))
    (hpos : 0 < sc)
    (hfresh : ∀ c ∈ t.cols,
      c.1 ∉ (derivedCols legalSuffixes ty (t.getCol col)).map (fun d => d.1)) :
    parser_main legalSuffixes t =
      Except.ok ⟨t.cols ++ derivedCols legalSuffixes ty (t.getCol col)⟩ := by
  cases ty with
  | PhoneT =>
      simp only [parser_main, hne, Bool.false_eq_true, if_false, hbest]
      rw [if_pos (⟨by simp, hpos⟩ : _ ∧ _)]
      have h1 : ∀ c ∈ t.cols, c.1 ≠ "Country" := by
        intro c hc
        have hx := hfresh c hc
        simp [derivedCols] at hx
        exact hx.1
      rw [setCol_append t "Country" _ h1]
      have h2 : ∀ c ∈ (Table.mk (t.cols ++
          [("Country", (t.getCol col).map (fun v => (parse_phone_number v).1))])).cols,
          c.1 ≠ "Number" := by
        intro c hc
        rcases List.mem_append.1 hc with hx | hx
        · have hy := hfresh c hx
          simp [derivedCols] at hy
          exact hy.2
        · simp at hx
          rw [hx]
          simp
      rw [setCol_append _ "Number" _ h2]
      simp [derivedCols]
  | CompanyT =>
      simp only [parser_main, hne, Bool.false_eq_true, if_false, hbest]
      rw [if_neg (fun hx => by simp at hx), if_pos (⟨by simp, hpos⟩ : _ ∧ _)]
      have h1 : ∀ c ∈ t.cols, c.1 ≠ "Name" := by
        intro c hc
        have hx := hfresh c hc
        simp [derivedCols] at hx
        exact hx.1
      rw [setCol_append t "Name" _ h1]
      have h2 : ∀ c ∈ (Table.mk (t.cols ++
          [("Name", (t.getCol col).map (fun v => (parse_company_name v legalSuffixes).1))])).cols,
          c.1 ≠ "Legal" := by
        intro c hc
        rcases List.mem_append.1 hc with hx | hx
        · have hy := hfresh c hx
          simp [derivedCols] at hy
          exact hy.2
        · simp at hx
          rw [hx]
          simp
      rw [setCol_append _ "Legal" _ h2]
      simp [derivedCols]

/-- C4 witness: a fresh one-column phone table gains exactly the appended
`Country` and `Number` columns. -/
theorem claim_C4_witness :
    parser_main [] ⟨[("phone", ["+14155552671"])]⟩ =
      Except.ok ⟨[("phone", ["+14155552671"]),
        ("Country", ["US"]), ("Number", ["4155552671"])]⟩ := by
  have e1 : looks_like_phone "+14155552671" = true := by decide
  have e2 : looks_like_company "+14155552671" [] = false := by decide
  have hbest : bestCandidate (candidates []
      (Table.mk [("phone", ["+14155552671"])])) = some ("phone", ColType.PhoneT, 1) := by
    simp [candidates, bestCandidate, score_phone, score_company, e1, e2,
      List.countP_cons, List.countP_nil]
  have h := claim_C4_appended_columns [] (Table.mk [("phone", ["+14155552671"])])
    "phone" ColType.PhoneT 1 (by decide) hbest (by norm_num) (by decide)
  rw [h]
  have hp : parse_phone_number "+14155552671" = ("US", "4155552671") := by decide
  simp [derivedCols, Table.getCol, List.find?, hp]

/-- C5: when every phone / company candidate of a non-empty table scores 0
(equivalently, the winning score is 0, scores being non-negative), the
parse operation performs no parsing and returns the table unchanged. -/
theorem claim_C5_zero_scores_unchanged (legalSuffixes : List String) (t : Table)
    (hne : t.pyEmpty = false)
    (hzero : ∀ c ∈ candidates legalSuffixes t, c.2.2 = 0) :
    parser_main legalSuffixes t = Except.ok t := by
  have hex : ∃ b, bestCandidate (candidates legalSuffixes t) = some b := by
    have hcols : t.cols ≠ [] := fun h => by simp [Table.pyEmpty, h] at hne
    cases hc : t.cols with
    | nil => exact absurd hc hcols
    | cons c cs =>
        unfold candidates
        rw [hc]
        exact ⟨_, rfl⟩
  obtain ⟨b, hb⟩ := hex
  have hz := hzero b (bestCandidate_mem _ _ hb)
  simp only [parser_main, hne, Bool.false_eq_true, if_false, hb]
  rw [if_neg, if_neg]
  · intro h
    rw [hz] at h
    exact lt_irrefl 0 h.2
  · intro h
    rw [hz] at h
    exact lt_irrefl 0 h.2

/-- C5 witness: a one-column table whose only cell is the empty string has
all candidate scores 0 and passes through unchanged. -/
theorem claim_C5_witness :
    parser_main [] ⟨[("a", [""])]⟩ = Except.ok ⟨[("a", [""])]⟩ := by
  apply claim_C5_zero_scores_unchanged
  · decide
  · intro c hc
    have e1 : looks_like_phone "" = false := by decide
    have e2 : looks_like_company "" [] = false := by decide
    simp [candidates, score_phone, score_company, e1, e2,
      List.countP_cons, List.countP_nil] at hc
    rcases hc with h | h <;> rw [h]

/-- C8: a zero-row table is rejected by the parse operation with the
descriptive error message, and no output table is ever produced for it. -/
theorem claim_C8_empty_table_rejected (legalSuffixes : List String) (t : Table)
    (hrows : t.nrows = 0) :
    parser_main legalSuffixes t = Except.error "Input CSV is empty." ∧
    ∀ t2 : Table, parser_main legalSuffixes t ≠ Except.ok t2 := by
  have hempty : t.pyEmpty = true := by
    unfold Table.pyEmpty
    simp [hrows]
  have h1 : parser_main legalSuffixes t = Except.error "Input CSV is empty." := by
    simp [parser_main, hempty]
  exact ⟨h1, fun t2 hcontra => by rw [h1] at hcontra; cases hcontra⟩

/-- C8 witness: a one-column zero-row table is rejected. -/
theorem claim_C8_witness :
    parser_main [] ⟨[("a", [])]⟩ = Except.error "Input CSV is empty." :=
  (claim_C8_empty_table_rejected [] ⟨[("a", [])]⟩ rfl).1

/-- C9 counterexample: the claim fails on the code at the request object
with tool value `[1]` — the membership test `tool_name not in TOOLS`
hashes the list and raises an uncaught TypeError instead of returning a
response — and at the valid-JSON non-object line `[1,2]`, where `req.get`
raises an uncaught AttributeError, terminating the loop with no response
for that line and the following line never read. -/
theorem claim_C9_counterexample :
    handle_request [("parse_file", fun _ => Except.error "boom")]
        { id := Json.null, tool := Json.arr [Json.num 1] } =
      Except.error PyError.typeErrorUnhashableTool ∧
    server_main (fun _ => Except.ok (Json.arr [Json.num 1, Json.num 2]))
        [("parse_file", fun _ => Except.error "boom")] ["[1,2]", "x"] =
      ([], some PyError.attrErrorNonObjectRequest) :=
  ⟨rfl, rfl⟩

/-- C9 amended: for every request object whose tool value is hashable (not
a JSON array or object), `handle_request` returns a response and never
propagates an exception — an unknown tool name yields `ok = false` with a
human-readable message carrying the request's id, and an exception raised
by a tool yields `ok = false` with the exception text and the id — and a
line that is not valid JSON is answered with an `ok = false` error
response without terminating the service loop; whereas an unhashable tool
value or a valid-JSON non-object line raises an uncaught exception that
terminates the loop. -/
theorem claim_C9_error_handling
    (tools : List (String × (Json → Except String Json)))
    (req : PyRequest) (decodeJson : String → Except String Json)
    (l : String) (rest : List String) :
    (req.tool.hashable = true →
      ∃ resp, handle_request tools req = Except.ok resp ∧ resp.id = req.id) ∧
    (req.tool.hashable = true → req.tool.asStr ≠ some "list_tools" →
      tools.find? (fun t => req.tool.asStr = some t.1) = none →
      handle_request tools req = Except.ok
        { id := req.id, ok := false,
          error := some ("Unknown tool: " ++ req.tool.pyStr) }) ∧
    (∀ name fn e, req.tool.asStr ≠ some "list_tools" →
      tools.find? (fun t => req.tool.asStr = some t.1) = some (name, fn) →
      fn (argsOrEmptyDict req.args) = Except.error e →
      handle_request tools req = Except.ok
        { id := req.id, ok := false, error := some e }) ∧
    (∀ e, pyStripStr l ≠ "" → decodeJson (pyStripStr l) = Except.error e →
      server_main decodeJson tools (l :: rest) =
        (invalidJsonResponse e :: (server_main decodeJson tools rest).1,
          (server_main decodeJson tools rest).2) ∧
      (invalidJsonResponse e).ok = false) := by
  refine ⟨fun hh => ?_, fun hh hn hf => ?_, fun name fn e hn hf he => ?_,
    fun e hs hd => ?_⟩
  · by_cases hlt : req.tool.asStr = some "list_tools"
    · refine ⟨{ id := req.id, ok := true,
                result := some (Json.obj [("tools",
                  Json.arr ((TOOLS_names tools).map Json.str))]) },
        ?_, rfl⟩
      simp only [handle_request, if_pos hlt]
    · cases hfind : tools.find? (fun t => req.tool.asStr = some t.1) with
      | none =>
          refine ⟨{ id := req.id, ok := false,
                    error := some ("Unknown tool: " ++ req.tool.pyStr) }, ?_, rfl⟩
          simp only [handle_request, if_neg hlt, if_pos hh, hfind]
      | some t =>
          cases ht : t.2 (argsOrEmptyDict req.args) with
          | ok r =>
              refine ⟨{ id := req.id, ok := true, result := some r }, ?_, rfl⟩
              simp only [handle_request, if_neg hlt, if_pos hh, hfind, ht]
          | error e =>
              refine ⟨{ id := req.id, ok := false, error := some e }, ?_, rfl⟩
              simp only [handle_request, if_neg hlt, if_pos hh, hfind, ht]
  · simp only [handle_request, if_neg hn, if_pos hh, hf]
  · have hp := List.find?_some hf
    have hstr : req.tool.asStr = some name := by simpa using hp
    have hh : req.tool.hashable = true := by
      cases hq : req.tool <;> rw [hq] at hstr <;> simp [Json.asStr] at hstr
      rfl
    simp only [handle_request, if_neg hn, if_pos hh, hf, he]
  · refine ⟨?_, rfl⟩
    simp only [server_main, if_neg hs, hd]

/-- C9 witness: an unknown tool and a raising tool produce `ok = false`
responses with the request id preserved, an undecodable line is answered
by an Invalid JSON response with the loop running to completion, and a
hashable non-string tool value still gets a response. -/
theorem claim_C9_witness :
    handle_request [("parse_file", fun _ => Except.error "boom")]
        { id := Json.str "7", tool := Json.str "nope" } =
      Except.ok { id := Json.str "7", ok := false,
                  error := some "Unknown tool: nope" } ∧
    handle_request [("parse_file", fun _ => Except.error "boom")]
        { id := Json.str "8", tool := Json.str "parse_file" } =
      Except.ok { id := Json.str "8", ok := false, error := some "boom" } ∧
    server_main (fun _ => Except.error "bad") [("parse_file", fun _ => Except.error "boom")]
        ["not json"] = ([invalidJsonResponse "bad"], none) ∧
    (∃ resp, handle_request [("parse_file", fun _ => Except.error "boom")]
        { id := Json.str "9", tool := Json.num 5 } = Except.ok resp ∧
        resp.id = Json.str "9") := by
  have h1 := (claim_C9_error_handling [("parse_file", fun _ => Except.error "boom")]
    { id := Json.str "7", tool := Json.str "nope" } (fun _ => Except.error "bad")
    "not json" []).2.1 rfl (by decide) rfl
  have h2 := (claim_C9_error_handling [("parse_file", fun _ => Except.error "boom")]
    { id := Json.str "8", tool := Json.str "parse_file" } (fun _ => Except.error "bad")
    "not json" []).2.2.1 "parse_file" (fun _ => Except.error "boom") "boom"
    (by decide) rfl rfl
  have h3 := (claim_C9_error_handling [("parse_file", fun _ => Except.error "boom")]
    { id := Json.str "7", tool := Json.str "nope" } (fun _ => Except.error "bad")
    "not json" []).2.2.2 "bad" (by decide) rfl
  have h4 := (claim_C9_error_handling [("parse_file", fun _ => Except.error "boom")]
    { id := Json.str "9", tool := Json.num 5 } (fun _ => Except.error "bad")
    "not json" []).1 rfl
  refine ⟨h1, h2, ?_, h4⟩
  rw [h3.1]
  rfl
